import Mathlib

/-!
# Verification of the Text-to-SQL core (`app_core.py`)

Shallow embedding of the pure string-processing core of the application:
the safety gate `is_sql_safe`, the output cleaner `_clean_model_sql`, the
join repairer `_auto_fix_joins`, and the control flow of `run_sql`.

Strings are modelled as lists of Unicode codepoints (`List Nat`), exactly
as Python iterates over `str` by codepoint.  `str.lower`, `str.strip` and
the regex character classes `\s` and `\w` are modelled on the ASCII range
(the only range exercised by the fixed token sets of the program and by SQL
text); outside `A`-`Z` the Python `lower` is the identity on all
codepoints that occur in the claims.
-/

namespace TextToSql

/-- Codepoint form of a string literal. -/
def S (s : String) : List Nat := s.data.map Char.toNat

/-- Python `str.lower` on a single codepoint (ASCII range: `A`-`Z` map to
`a`-`z`, everything else fixed). -/
def toLowerN (n : Nat) : Nat := if 65 ≤ n ∧ n ≤ 90 then n + 32 else n

/-- Python `str.lower` over a whole string. -/
def lowerL (l : List Nat) : List Nat := l.map toLowerN

/-- The whitespace class stripped by Python `str.strip` (space, tab, LF,
CR, VT, FF). -/
def isSpaceN (n : Nat) : Bool :=
  n = 32 || n = 9 || n = 10 || n = 13 || n = 11 || n = 12

/-- Python regex `\w`: ASCII alphanumerics and underscore. -/
def isWordN (n : Nat) : Bool :=
  (48 ≤ n && n ≤ 57) || (65 ≤ n && n ≤ 90) || (97 ≤ n && n ≤ 122) || n = 95

/-- Python `str.strip`: drop whitespace at both ends. -/
def strip (l : List Nat) : List Nat :=
  (l.dropWhile isSpaceN).rdropWhile isSpaceN

/-- Substring test: `t` occurs as a contiguous substring of `l` (Python `t in l`). -/
def isSub (t : List Nat) : List Nat → Bool
  | [] => t.isEmpty
  | c :: cs => t.isPrefixOf (c :: cs) || isSub t cs

/-- The fixed forbidden-token list of `is_sql_safe` (`app_core.py:105`). -/
def forbidden : List (List Nat) :=
  [S ("insert"), S ("update"), S ("delete"), S ("drop"), S ("alter"),
   S ("create"), S ("attach"), S ("pragma"), S ("vacuum"), S (";--"), S ("--")]

/-- The safety gate `is_sql_safe` (`app_core.py:94-112`): allow only single SELECT
statements free of the forbidden tokens. -/
def is_sql_safe (sql : List Nat) : Bool :=
  -- `sql_lower = sql.strip().lower()` is written out as `lowerL (strip sql)`
  if sql.isEmpty then false
  else if !((S ("select")).isPrefixOf (lowerL (strip sql))) then false
  else if forbidden.any (fun t => isSub t (lowerL (strip sql))) then false
  else if (lowerL (strip sql)).contains 59 &&
      decide ((lowerL (strip sql)).count 59 > 1) then false
  else true

/-- The code-fence removal step of `_clean_model_sql` (`app_core.py:62`):
Python `re.sub` of the pattern "three backticks optionally followed by
`sql` (case-insensitive)" by the empty string, scanning left to right
over non-overlapping matches.  Codepoints: backtick 96, `s` 115,
`q` 113, `l` 108. -/
def removeFences : List Nat → List Nat
  | 96 :: 96 :: 96 :: a :: b :: c :: rest2 =>
    if toLowerN a = 115 ∧ toLowerN b = 113 ∧ toLowerN c = 108 then
      removeFences rest2
    else removeFences (a :: b :: c :: rest2)
  | 96 :: 96 :: 96 :: rest => removeFences rest
  | c :: cs => c :: removeFences cs
  | [] => []

/-- Does `l` start with `select` (case-insensitive) followed by a regex
word boundary — the anchored form of Python `re.search(r"(?i)(select\b.*)",
..., re.DOTALL)` at one position? -/
def startsSelectWB (l : List Nat) : Bool :=
  (S ("select")).isPrefixOf (lowerL l) &&
    (match l.drop 6 with
     | [] => true
     | d :: _ => !(isWordN d))

/-- The leftmost suffix of `l` beginning with `select\b`; `.*` with
`re.DOTALL` is greedy, so the captured group runs to the end of the
string. -/
def findSelectWB : List Nat → Option (List Nat)
  | [] => none
  | c :: cs => if startsSelectWB (c :: cs) then some (c :: cs) else findSelectWB cs

/-- The cleaner `_clean_model_sql` (`app_core.py:54-71`): strip, remove code fences,
strip, then keep from the first `select\b` to the end (trimmed); if no
match, return the fence-stripped trimmed text. -/
def clean_model_sql (raw : List Nat) : List Nat :=
  -- `sql = re.sub(..., raw.strip()).strip()` is written out as
  -- `strip (removeFences (strip raw))`
  if raw.isEmpty then raw
  else
    match findSelectWB (strip (removeFences (strip raw))) with
    | some cand => strip cand
    | none => strip (removeFences (strip raw))

/-- The replacement text `_auto_fix_joins` substitutes for the matched
`from\s+sales\b` span (`app_core.py:86-88`). -/
def joinReplacement : List Nat :=
  S ("FROM sales s\nLEFT JOIN products p ON s.product_id = p.product_id\nLEFT JOIN customers c ON s.customer_id = c.customer_id")

/-- Match of the regex `from\s+sales\b` (case-insensitive) anchored at the
head of `l`; returns the remainder after the matched span.  `\s+` is
greedy, and since `sales` starts with a non-whitespace character the
greedy maximal munch is the only possible match. -/
def matchFromSales (l : List Nat) : Option (List Nat) :=
  if (S ("from")).isPrefixOf (lowerL l) then
    let r1 := l.drop 4
    if (r1.takeWhile isSpaceN).isEmpty then none
    else
      let r2 := r1.dropWhile isSpaceN
      if (S ("sales")).isPrefixOf (lowerL r2) then
        match r2.drop 5 with
        | [] => some []
        | d :: rest => if isWordN d then none else some (d :: rest)
      else none
  else none

/-- Python `pattern.sub(replacement, sql, count=1)` for the pattern
`from\s+sales\b`: replace the leftmost match only. -/
def subFromSales : List Nat → List Nat
  | [] => []
  | c :: cs =>
    match matchFromSales (c :: cs) with
    | some rest => joinReplacement ++ rest
    | none => c :: subFromSales cs

/-- The join repairer `_auto_fix_joins` (`app_core.py:73-91`): if the query draws from
`sales` and mentions a product/customer display name but has no join to
`products`/`customers`, substitute the first `from\s+sales\b` span by the
three-way aliased LEFT JOIN block. -/
def auto_fix_joins (sql : List Nat) : List Nat :=
  let sql_lower := lowerL sql
  if isSub (S ("from sales")) sql_lower &&
      (isSub (S ("product_name")) sql_lower ||
       isSub (S ("customer_name")) sql_lower ||
       isSub (S ("customers.name")) sql_lower) then
    if isSub (S ("join products")) sql_lower ||
       isSub (S ("join customers")) sql_lower then sql
    else subFromSales sql
  else sql

/-- Observable store interactions of `run_sql`: opening the SQLite
connection, executing the query, closing the connection. -/
inductive DbEvent
  | connect
  | runQuery
  | close
deriving DecidableEq, Repr

/-- The message of the exception raised when the safety gate rejects
(`app_core.py:192`). -/
def blockedMsg : List Nat :=
  S ("SQL blocked by safety policy (only SELECT allowed or query contained unsafe tokens).")

/-- Python `sql.strip().rstrip(";")` (`app_core.py:195`). -/
def prepSql (sql : List Nat) : List Nat :=
  (strip sql).rdropWhile (fun n => n == 59)

/-- The execution engine `run_sql` (`app_core.py:187-205`).  The SQLite / pandas layer is an
external collaborator, abstracted as an oracle `exec` from the prepared
SQL text to either a tabular result or a database error message.  The
returned trace lists the store interactions in order: the unsafe path
raises before touching the store; on both the failure and the success
path the connection is opened, the query run, and the connection closed. -/
def run_sql {α : Type} (dbExec : List Nat → Except (List Nat) α) (sql : List Nat) :
    Except (List Nat) α × List DbEvent :=
  if is_sql_safe sql = false then
    (Except.error blockedMsg, [])
  else
    match dbExec (prepSql sql) with
    | Except.error e =>
      (Except.error (S ("SQL execution error: ") ++ e),
       [DbEvent.connect, DbEvent.runQuery, DbEvent.close])
    | Except.ok df =>
      (Except.ok df, [DbEvent.connect, DbEvent.runQuery, DbEvent.close])

/-! ## Supporting lemmas -/

/-- The test `isSub` decides the substring (infix) relation. -/
theorem isSub_iff {t l : List Nat} : isSub t l = true ↔ t <:+: l := by
  induction l with
  | nil =>
    simp only [isSub, List.isEmpty_iff]
    constructor
    · rintro rfl; exact List.infix_refl []
    · intro h; exact List.eq_nil_of_infix_nil h
  | cons c cs ih =>
    simp only [isSub, Bool.or_eq_true, List.isPrefixOf_iff_prefix, ih,
      List.infix_cons_iff]

/-- Lowering a codepoint does not change whether it is whitespace. -/
theorem isSpaceN_toLowerN (n : Nat) : isSpaceN (toLowerN n) = isSpaceN n := by
  unfold toLowerN
  split
  · next h =>
    have h1 : isSpaceN (n + 32) = false := by
      unfold isSpaceN
      simp only [Bool.or_eq_false_iff, decide_eq_false_iff_not]
      omega
    have h2 : isSpaceN n = false := by
      unfold isSpaceN
      simp only [Bool.or_eq_false_iff, decide_eq_false_iff_not]
      omega
    rw [h1, h2]
  · rfl

/-- Lowering commutes with a leading `dropWhile` on whitespace. -/
theorem dropWhile_lowerL (m : List Nat) :
    (lowerL m).dropWhile isSpaceN = lowerL (m.dropWhile isSpaceN) := by
  unfold lowerL
  rw [List.dropWhile_map]
  have hc : (isSpaceN ∘ toLowerN) = isSpaceN := funext isSpaceN_toLowerN
  rw [hc]

/-- Lowering commutes with reversal. -/
theorem reverse_lowerL (m : List Nat) : (lowerL m).reverse = lowerL m.reverse := by
  unfold lowerL
  exact (List.map_reverse toLowerN m).symm

/-- Lowering and stripping commute. -/
theorem lowerL_strip (l : List Nat) : lowerL (strip l) = strip (lowerL l) := by
  unfold strip List.rdropWhile
  rw [dropWhile_lowerL, reverse_lowerL, dropWhile_lowerL, reverse_lowerL]

/-- The stripped string is an infix of the original. -/
theorem strip_infix_self (l : List Nat) : strip l <:+: l :=
  List.IsInfix.trans ( List.rdropWhile_prefix _ _).isInfix
    (List.dropWhile_suffix _).isInfix

/-- A nonempty whitespace-free infix survives a leading `dropWhile`. -/
theorem infix_dropWhile_of_head {h : Nat} {t' l : List Nat}
    (hph : isSpaceN h = false) (hin : (h :: t') <:+: l) :
    (h :: t') <:+: l.dropWhile isSpaceN := by
  obtain ⟨s, u, rfl⟩ := hin
  rw [List.append_assoc, List.dropWhile_append]
  split
  · rw [List.cons_append, List.dropWhile_cons, if_neg (by simp [hph])]
    exact ((h :: t').prefix_append u).isInfix
  · exact ⟨List.dropWhile isSpaceN s, u, List.append_assoc _ _ _⟩

/-- A nonempty whitespace-free infix survives stripping. -/
theorem infix_strip {t l : List Nat} (hne : t ≠ [])
    (hall : ∀ x ∈ t, isSpaceN x = false) (hin : t <:+: l) :
    t <:+: strip l := by
  obtain ⟨h, t', rfl⟩ := List.exists_cons_of_ne_nil hne
  have h1 : (h :: t') <:+: l.dropWhile isSpaceN :=
    infix_dropWhile_of_head (hall h (List.mem_cons_self h t')) hin
  unfold strip List.rdropWhile
  rw [← List.reverse_infix, List.reverse_reverse]
  have h2 : (h :: t').reverse <:+: (l.dropWhile isSpaceN).reverse :=
    List.reverse_infix.mpr h1
  obtain ⟨hr, tr, hrev⟩ := List.exists_cons_of_ne_nil
    (fun hc => by simp [List.reverse_eq_nil_iff] at hc : (h :: t').reverse ≠ [])
  rw [hrev] at h2 ⊢
  refine infix_dropWhile_of_head ?_ h2
  have : hr ∈ (h :: t').reverse := by rw [hrev]; exact List.mem_cons_self hr tr
  exact hall hr (List.mem_reverse.mp this)

/-- Count of a non-whitespace codepoint is unchanged by stripping. -/
theorem count_strip {n : Nat} (hn : isSpaceN n = false) (l : List Nat) :
    (strip l).count n = l.count n := by
  have key : ∀ m : List Nat, (m.dropWhile isSpaceN).count n = m.count n := by
    intro m
    conv_rhs => rw [← List.takeWhile_append_dropWhile (p := isSpaceN) (l := m)]
    rw [List.count_append]
    have : (m.takeWhile isSpaceN).count n = 0 := by
      rw [List.count_eq_zero]
      intro hmem
      have htrue := List.mem_takeWhile_imp hmem
      rw [hn] at htrue
      exact Bool.false_ne_true htrue
    omega
  unfold strip List.rdropWhile
  rw [List.count_reverse, key, List.count_reverse, key]

/-- Count of a non-uppercase-letter codepoint is unchanged by lowering. -/
theorem count_lowerL {n : Nat} (hn : ∀ m, toLowerN m = n ↔ m = n) (l : List Nat) :
    (lowerL l).count n = l.count n := by
  induction l with
  | nil => rfl
  | cons c cs ih =>
    show (toLowerN c :: lowerL cs).count n = _
    rw [List.count_cons, List.count_cons, ih]
    have hbeq : (toLowerN c == n) = (c == n) := by
      by_cases hc : c = n
      · subst hc
        have ht : toLowerN c = c := (hn c).mpr rfl
        rw [ht]
      · have h2 : toLowerN c ≠ n := fun he => hc ((hn c).mp he)
        rw [beq_eq_false_iff_ne.mpr h2, beq_eq_false_iff_ne.mpr hc]
    rw [hbeq]

/-- The semicolon codepoint 59 is touched by neither lowering nor
whitespace stripping. -/
theorem count_semi_lower_strip (l : List Nat) :
    (lowerL (strip l)).count 59 = l.count 59 := by
  rw [count_lowerL (by intro m; unfold toLowerN; split <;> omega),
    count_strip (by decide)]

/-- Every forbidden token is nonempty and whitespace-free. -/
theorem forbidden_nonspace :
    ∀ t ∈ forbidden, t ≠ [] ∧ ∀ x ∈ t, isSpaceN x = false := by decide

/-! ## Claims about the safety gate -/

/-- C1: for every string that is empty or whose trimmed form does not
start with `select` (case-insensitive), `is_sql_safe` returns false. -/
theorem safety_rejects_non_select (sql : List Nat)
    (h : sql = [] ∨ (S ("select")).isPrefixOf (lowerL (strip sql)) = false) :
    is_sql_safe sql = false := by
  rcases h with rfl | h
  · rfl
  · simp [is_sql_safe, h]

/-- Witness for C1 at a concrete non-SELECT input. -/
theorem safety_rejects_non_select_witness :
    is_sql_safe (S ("DROP TABLE sales")) = false :=
  safety_rejects_non_select (S ("DROP TABLE sales")) (Or.inr (by decide))

/-- C2: any string containing a forbidden token as a case-insensitive
substring is rejected, even if it otherwise starts with `select`. -/
theorem safety_rejects_forbidden_token (sql t : List Nat) (ht : t ∈ forbidden)
    (hsub : isSub t (lowerL sql) = true) : is_sql_safe sql = false := by
  obtain ⟨hne, hall⟩ := forbidden_nonspace t ht
  have hin : t <:+: lowerL sql := isSub_iff.mp hsub
  have hsub2 : isSub t (lowerL (strip sql)) = true := by
    rw [lowerL_strip]
    exact isSub_iff.mpr (infix_strip hne hall hin)
  have hany : (forbidden.any fun u => isSub u (lowerL (strip sql))) = true :=
    List.any_eq_true.mpr ⟨t, ht, hsub2⟩
  simp [is_sql_safe, hany]

/-- Witness for C2: the example given in the spec, a `select` followed by a
`DROP` statement. -/
theorem safety_rejects_forbidden_token_witness :
    is_sql_safe (S ("SELECT * FROM sales; DROP TABLE sales;")) = false :=
  safety_rejects_forbidden_token (S ("SELECT * FROM sales; DROP TABLE sales;"))
    (S ("drop")) (by decide) (by decide)

/-- C3: with two or more semicolons the gate rejects; with the other
rules satisfied (non-empty, trimmed form starts with `select`
case-insensitively, no forbidden token) and at most one semicolon, the
gate accepts. -/
theorem safety_semicolon_policy (sql : List Nat) :
    (2 ≤ sql.count 59 → is_sql_safe sql = false) ∧
    (sql ≠ [] →
      (S ("select")).isPrefixOf (lowerL (strip sql)) = true →
      (∀ t ∈ forbidden, isSub t (lowerL sql) = false) →
      sql.count 59 ≤ 1 →
      is_sql_safe sql = true) := by
  constructor
  · intro h2
    have hcount : (lowerL (strip sql)).count 59 = sql.count 59 :=
      count_semi_lower_strip sql
    have hgt : decide ((lowerL (strip sql)).count 59 > 1) = true := by
      simp only [decide_eq_true_eq]
      omega
    have h59 : 59 ∈ lowerL (strip sql) := List.count_pos_iff.mp (by omega)
    have hmem : (lowerL (strip sql)).contains 59 = true := List.elem_iff.mpr h59
    simp [is_sql_safe, hmem, hgt, h59]
  · intro hne hpre hforb hle
    have hempty : sql.isEmpty = false := by
      cases sql with
      | nil => exact absurd rfl hne
      | cons c cs => rfl
    have hanyf : (forbidden.any fun t => isSub t (lowerL (strip sql))) = false := by
      refine Bool.eq_false_iff.mpr ?_
      intro hcontra
      rw [List.any_eq_true] at hcontra
      obtain ⟨t, ht, hcontra⟩ := hcontra
      have hwhole : t <:+: lowerL sql := by
        have h1 : t <:+: lowerL (strip sql) := isSub_iff.mp hcontra
        have h2 : lowerL (strip sql) <:+: lowerL sql := by
          rw [lowerL_strip]
          exact strip_infix_self (lowerL sql)
        exact h1.trans h2
      have := hforb t ht
      rw [isSub_iff.mpr hwhole] at this
      exact Bool.true_eq_false.mp this
  -- count in the lowered stripped string equals count in the original
    have hgt : decide ((lowerL (strip sql)).count 59 > 1) = false := by
      rw [decide_eq_false_iff_not]
      rw [count_semi_lower_strip]
      omega
    simp [is_sql_safe, hempty, hpre, hanyf, hgt]

/-- Witness for C3: both halves at concrete inputs — a double-semicolon
query is rejected, the accepted example of the spec passes. -/
theorem safety_semicolon_policy_witness :
    is_sql_safe (S ("select 1; select 2;")) = false ∧
    is_sql_safe (S ("SELECT name FROM customers")) = true :=
  ⟨(safety_semicolon_policy (S ("select 1; select 2;"))).1 (by decide),
   (safety_semicolon_policy (S ("SELECT name FROM customers"))).2
     (by decide) (by decide) (by decide) (by decide)⟩

/-- C10: a single interior semicolon joining two complete statements
passes the gate — it counts semicolons but never checks their
position. -/
theorem safety_accepts_single_interior_semicolon :
    (S ("select * from sales; select * from customers")).count 59 = 1 ∧
    is_sql_safe (S ("select * from sales; select * from customers")) = true := by
  decide

/-! ## Claims about the execution engine `run_sql` -/

/-- C4: for every input rejected by the safety gate, `run_sql` raises the
blocking failure and performs no store interaction at all — the
connection is never opened. -/
theorem run_sql_blocked_before_execution {α : Type}
    (dbExec : List Nat → Except (List Nat) α) (sql : List Nat)
    (h : is_sql_safe sql = false) :
    run_sql dbExec sql = (Except.error blockedMsg, []) := by
  simp [run_sql, h]

/-- Witness for C4: a DELETE statement is blocked with an untouched
store, whatever the database would have answered. -/
theorem run_sql_blocked_before_execution_witness :
    run_sql (fun _ => (Except.ok 0 : Except (List Nat) Nat))
        (S ("DELETE FROM sales")) =
      (Except.error blockedMsg, []) :=
  run_sql_blocked_before_execution (fun _ => (Except.ok 0 : Except (List Nat) Nat))
    (S ("DELETE FROM sales")) (by decide)

/-- C5: on every gate-approved statement `run_sql` opens the connection,
runs the query and closes the connection, on the failure path (where the
raised failure carries the database error text) just as on the success
path: it never ends with the connection still open. -/
theorem run_sql_releases_connection {α : Type}
    (dbExec : List Nat → Except (List Nat) α) (sql : List Nat)
    (h : is_sql_safe sql = true) :
    (∀ e, dbExec (prepSql sql) = Except.error e →
      run_sql dbExec sql =
        (Except.error (S ("SQL execution error: ") ++ e),
         [DbEvent.connect, DbEvent.runQuery, DbEvent.close])) ∧
    (∀ df, dbExec (prepSql sql) = Except.ok df →
      run_sql dbExec sql =
        (Except.ok df, [DbEvent.connect, DbEvent.runQuery, DbEvent.close])) := by
  constructor
  · intro e he
    simp [run_sql, h, he]
  · intro df hdf
    simp [run_sql, h, hdf]

/-- Witness for C5: a gate-approved query naming a non-existent column;
the oracle fails, the failure text is surfaced and the trace closes the
connection. -/
theorem run_sql_releases_connection_witness :
    run_sql (fun _ => (Except.error (S ("no such column: foo")) : Except (List Nat) Nat))
        (S ("select foo from sales")) =
      (Except.error (S ("SQL execution error: ") ++ S ("no such column: foo")),
       [DbEvent.connect, DbEvent.runQuery, DbEvent.close]) :=
  (run_sql_releases_connection
      (fun _ => (Except.error (S ("no such column: foo")) : Except (List Nat) Nat))
      (S ("select foo from sales")) (by decide)).1
    (S ("no such column: foo")) rfl

/-! ## Claims about the join repairer -/

set_option maxRecDepth 8000 in
/-- C6: on the example of the spec the `FROM sales` clause is replaced by the
three-way aliased join block, inserted before `GROUP BY`, with the rest
of the statement unchanged. -/
theorem auto_fix_joins_inserts_join_block :
    auto_fix_joins
        (S ("SELECT product_name, SUM(quantity) FROM sales GROUP BY product_name")) =
      S ("SELECT product_name, SUM(quantity) ") ++ joinReplacement ++
        S (" GROUP BY product_name") := by
  decide

/-- The substitution `subFromSales` either leaves its input unchanged (no match) or its
output contains the substring `join products` (the replacement block was
inserted). -/
theorem subFromSales_cases (l : List Nat) :
    subFromSales l = l ∨
      isSub (S ("join products")) (lowerL (subFromSales l)) = true := by
  induction l with
  | nil => exact Or.inl rfl
  | cons c cs ih =>
    show subFromSales (c :: cs) = c :: cs ∨ _
    rw [subFromSales]
    cases hm : matchFromSales (c :: cs) with
    | some rest =>
      refine Or.inr ?_
      rw [isSub_iff]
      have hjp : (S ("join products")) <:+: lowerL joinReplacement := by
        rw [← isSub_iff]
        decide
      have happ : lowerL joinReplacement <:+: lowerL (joinReplacement ++ rest) := by
        unfold lowerL
        rw [List.map_append]
        exact (List.prefix_append _ _).isInfix
      exact hjp.trans happ
    | none =>
      rcases ih with h | h
      · exact Or.inl (by rw [h])
      · refine Or.inr ?_
        show isSub (S ("join products")) (lowerL (c :: subFromSales cs)) = true
        show isSub (S ("join products")) (toLowerN c :: lowerL (subFromSales cs)) = true
        rw [isSub]
        rw [h]
        exact Bool.or_true _

/-- Idempotence of `auto_fix_joins` on all inputs: a second application
never changes the output of the first. -/
theorem auto_fix_joins_idem (sql : List Nat) :
    auto_fix_joins (auto_fix_joins sql) = auto_fix_joins sql := by
  by_cases h1 : (isSub (S ("from sales")) (lowerL sql) &&
      (isSub (S ("product_name")) (lowerL sql) ||
       isSub (S ("customer_name")) (lowerL sql) ||
       isSub (S ("customers.name")) (lowerL sql))) = true
  · by_cases h2 : (isSub (S ("join products")) (lowerL sql) ||
        isSub (S ("join customers")) (lowerL sql)) = true
    · have hfix : auto_fix_joins sql = sql := by
        unfold auto_fix_joins
        rw [if_pos h1, if_pos h2]
      rw [hfix, hfix]
    · have hfix : auto_fix_joins sql = subFromSales sql := by
        unfold auto_fix_joins
        rw [if_pos h1, if_neg h2]
      rcases subFromSales_cases sql with hc | hc
      · rw [hfix, hc, hfix, hc]
      · rw [hfix]
        by_cases h1b : (isSub (S ("from sales")) (lowerL (subFromSales sql)) &&
            (isSub (S ("product_name")) (lowerL (subFromSales sql)) ||
             isSub (S ("customer_name")) (lowerL (subFromSales sql)) ||
             isSub (S ("customers.name")) (lowerL (subFromSales sql)))) = true
        · unfold auto_fix_joins
          rw [if_pos h1b, if_pos (by rw [hc]; exact Bool.true_or _)]
        · unfold auto_fix_joins
          rw [if_neg h1b]
  · have hfix : auto_fix_joins sql = sql := by
      unfold auto_fix_joins
      rw [if_neg h1]
    rw [hfix, hfix]

/-- C9: applying the join repairer twice to a query that already
contains a join yields the same output as applying it once. -/
theorem auto_fix_joins_idempotent (sql : List Nat)
    (_h : isSub (S ("join")) (lowerL sql) = true) :
    auto_fix_joins (auto_fix_joins sql) = auto_fix_joins sql :=
  auto_fix_joins_idem sql

/-- Witness for C9 at a query that already joins `products`. -/
theorem auto_fix_joins_idempotent_witness :
    auto_fix_joins (auto_fix_joins
        (S ("SELECT product_name FROM sales JOIN products p ON sales.product_id = p.product_id"))) =
      auto_fix_joins
        (S ("SELECT product_name FROM sales JOIN products p ON sales.product_id = p.product_id")) :=
  auto_fix_joins_idempotent
    (S ("SELECT product_name FROM sales JOIN products p ON sales.product_id = p.product_id"))
    (by decide)

/-! ## Supporting lemmas for the SQL cleaner -/

/-- Any string starting with three backticks contains the fence marker. -/
theorem fence_prefix_isSub (rest : List Nat) :
    isSub (S ("```")) (96 :: 96 :: 96 :: rest) = true := by
  have hs : S ("```") = [96, 96, 96] := by decide
  rw [hs, isSub]
  simp [List.isPrefixOf]

/-- A string containing no fence marker is left unchanged by fence
removal. -/
theorem removeFences_eq_self {l : List Nat} (h : isSub (S ("```")) l = false) :
    removeFences l = l := by
  induction l using removeFences.induct with
  | case1 a b c rest2 hsql =>
    rw [fence_prefix_isSub] at h
    exact absurd h (by simp)
  | case2 a b c rest2 hsql =>
    rw [fence_prefix_isSub] at h
    exact absurd h (by simp)
  | case3 rest hshape =>
    rw [fence_prefix_isSub] at h
    exact absurd h (by simp)
  | case4 c cs hA hB ih =>
    have hl : isSub (S ("```")) cs = false := by
      rw [isSub] at h
      exact (Bool.or_eq_false_iff.mp h).2
    rw [removeFences, ih hl]
    · exact hA
    · exact hB
  | case5 => rfl

/-- The first element surviving `dropWhile` falsifies the predicate. -/
theorem dropWhile_first_false {p : Nat → Bool} :
    ∀ {z : Nat} {ll zs : List Nat}, ll.dropWhile p = z :: zs → p z = false := by
  intro z ll zs h
  induction ll with
  | nil => cases h
  | cons a as ih =>
    rw [List.dropWhile_cons] at h
    split at h
    · exact ih h
    · next hpa =>
      injection h with h1 h2
      subst h1
      exact Bool.eq_false_iff.mpr hpa

/-- Stripping is idempotent. -/
theorem strip_idempotent (l : List Nat) : strip (strip l) = strip l := by
  have h1 : (strip l).dropWhile isSpaceN = strip l := by
    cases hs : strip l with
    | nil => rfl
    | cons y ys =>
      have hpre : strip l <+: l.dropWhile isSpaceN := List.rdropWhile_prefix _ _
      rw [hs] at hpre
      obtain ⟨t, ht⟩ := hpre
      have hdw : List.dropWhile isSpaceN l = y :: (ys ++ t) := by
        rw [← ht]
        rfl
      have hy : isSpaceN y = false := dropWhile_first_false hdw
      rw [List.dropWhile_cons, if_neg (by simp [hy])]
  have h2 : (strip l).rdropWhile isSpaceN = strip l := by
    show ((l.dropWhile isSpaceN).rdropWhile isSpaceN).rdropWhile isSpaceN = strip l
    rw [List.rdropWhile_idempotent]
    rfl
  calc strip (strip l)
      = ((strip l).dropWhile isSpaceN).rdropWhile isSpaceN := rfl
    _ = (strip l).rdropWhile isSpaceN := by rw [h1]
    _ = strip l := h2

/-- If `select` does not occur (case-insensitively) in `l`, the scan for
`select\b` finds nothing. -/
theorem findSelectWB_eq_none {l : List Nat}
    (h : isSub (S ("select")) (lowerL l) = false) :
    findSelectWB l = none := by
  induction l with
  | nil => rfl
  | cons c cs ih =>
    have hl : lowerL (c :: cs) = toLowerN c :: lowerL cs := rfl
    rw [hl, isSub] at h
    obtain ⟨h1, h2⟩ := Bool.or_eq_false_iff.mp h
    have hstart : startsSelectWB (c :: cs) = false := by
      unfold startsSelectWB
      rw [hl, h1]
      rfl
    rw [findSelectWB, if_neg (by simp [hstart]), ih h2]

/-- The scan returns the suffix at the first position where `select\b`
matches: if `cand` matches and every longer suffix does not, the scan of
`pre ++ cand` yields exactly `cand`. -/
theorem findSelectWB_eq_some (pre cand : List Nat)
    (hsel : startsSelectWB cand = true)
    (hfirst : ∀ c2 ∈ (pre ++ cand).tails, cand.length < c2.length →
      startsSelectWB c2 = false) :
    findSelectWB (pre ++ cand) = some cand := by
  induction pre with
  | nil =>
    rw [List.nil_append]
    cases cand with
    | nil => exact absurd hsel (by decide)
    | cons c cs => rw [findSelectWB, if_pos hsel]
  | cons p pre2 ih =>
    rw [List.cons_append, findSelectWB]
    have hmem : (p :: (pre2 ++ cand)) ∈ ((p :: pre2) ++ cand).tails := by
      rw [List.cons_append]
      exact (List.mem_tails _ _).mpr (List.suffix_refl _)
    have hlong : cand.length < (p :: (pre2 ++ cand)).length := by
      simp only [List.length_cons, List.length_append]
      omega
    have hself : startsSelectWB (p :: (pre2 ++ cand)) = false :=
      hfirst _ hmem hlong
    rw [if_neg (by simp [hself])]
    refine ih ?_
    intro c2 hc2 hlen
    refine hfirst c2 ?_ hlen
    have hsuf : c2 <:+ pre2 ++ cand := (List.mem_tails _ _).mp hc2
    rw [List.cons_append]
    exact (List.mem_tails _ _).mpr (hsuf.trans (List.suffix_cons p _))

/-- If the fence-stripped text has no case-insensitive `select`
substring, the cleaner returns the fence-stripped trimmed text. -/
theorem clean_model_sql_of_no_select (raw : List Nat) (hne : raw ≠ [])
    (hsel : isSub (S ("select")) (lowerL (strip (removeFences (strip raw)))) = false) :
    clean_model_sql raw = strip (removeFences (strip raw)) := by
  have hempty : raw.isEmpty = false := by
    cases raw with
    | nil => exact absurd rfl hne
    | cons c cs => rfl
  unfold clean_model_sql
  rw [hempty]
  show (match findSelectWB (strip (removeFences (strip raw))) with
    | some cand => strip cand
    | none => strip (removeFences (strip raw))) = _
  rw [findSelectWB_eq_none hsel]

/-! ## Claims about the SQL cleaner -/

/-- C7 counterexample: `"my selection"` contains a case-insensitive
occurrence of `select` (at index 3) and is fence-free, so the claim says
the cleaner returns `"selection"`; the code requires a word boundary
after `select` and returns the input unchanged. -/
theorem cleaner_select_counterexample :
    ¬(clean_model_sql (S ("my selection")) = S ("selection")) := by
  decide

/-- C7 (amended with the word boundary the regex `select\b` imposes):
whenever the fence-stripped text splits as `pre ++ cand` with `cand`
starting with `select` at a word boundary and no longer suffix matching,
the cleaner returns `cand` trimmed — everything from the first
`select\b` to the end; and on the fenced example of the spec it yields
exactly `SELECT * FROM sales`. -/
theorem cleaner_extracts_from_first_select :
    (∀ raw pre cand, raw ≠ [] →
      strip (removeFences (strip raw)) = pre ++ cand →
      startsSelectWB cand = true →
      (∀ c2 ∈ (pre ++ cand).tails, cand.length < c2.length →
        startsSelectWB c2 = false) →
      clean_model_sql raw = strip cand) ∧
    clean_model_sql (S ("Here is the query:\n```sql\nSELECT * FROM sales\n```")) =
      S ("SELECT * FROM sales") := by
  constructor
  · intro raw pre cand hne hsplit hsel hfirst
    have hempty : raw.isEmpty = false := by
      cases raw with
      | nil => exact absurd rfl hne
      | cons c cs => rfl
    unfold clean_model_sql
    rw [hempty]
    show (match findSelectWB (strip (removeFences (strip raw))) with
      | some c => strip c
      | none => strip (removeFences (strip raw))) = _
    rw [hsplit, findSelectWB_eq_some pre cand hsel hfirst]
  · decide

/-- Witness for C7 at a response with leading commentary. -/
theorem cleaner_extracts_from_first_select_witness :
    clean_model_sql (S ("note:\nSELECT 1")) = strip (S ("SELECT 1")) :=
  cleaner_extracts_from_first_select.1 (S ("note:\nSELECT 1")) (S ("note:\n"))
    (S ("SELECT 1")) (by decide) (by decide) (by decide) (by decide)

/-- C8 counterexample: `"```x```"` contains no `select`, yet the cleaner
returns `"x"`, not the trimmed original `"```x```"` — the fence markers
are removed before the no-`select` fallback. -/
theorem cleaner_no_select_counterexample :
    ¬(clean_model_sql (S ("```x```")) = strip (S ("```x```"))) := by
  decide

/-- C8 (amended: the fallback is the fence-stripped trimmed text, which
equals the trimmed original exactly when the input carries no fence
marker): a non-empty input whose fence-stripped text has no
case-insensitive `select` comes back fence-stripped and trimmed; if the
input moreover contains no fence marker, it comes back trimmed and
otherwise unchanged. -/
theorem cleaner_no_select_fallback :
    (∀ raw, raw ≠ [] →
      isSub (S ("select")) (lowerL (strip (removeFences (strip raw)))) = false →
      clean_model_sql raw = strip (removeFences (strip raw))) ∧
    (∀ raw, raw ≠ [] →
      isSub (S ("```")) raw = false →
      isSub (S ("select")) (lowerL raw) = false →
      clean_model_sql raw = strip raw) := by
  constructor
  · exact clean_model_sql_of_no_select
  · intro raw hne hfence hsel
    have hfence2 : isSub (S ("```")) (strip raw) = false := by
      refine Bool.eq_false_iff.mpr ?_
      intro hc
      have : (S ("```")) <:+: raw := (isSub_iff.mp hc).trans (strip_infix_self raw)
      rw [isSub_iff.mpr this] at hfence
      exact Bool.true_eq_false.mp hfence
    have hrf : removeFences (strip raw) = strip raw := removeFences_eq_self hfence2
    have hsel2 : isSub (S ("select"))
        (lowerL (strip (removeFences (strip raw)))) = false := by
      rw [hrf, strip_idempotent]
      refine Bool.eq_false_iff.mpr ?_
      intro hc
      have : (S ("select")) <:+: lowerL raw := by
        refine (isSub_iff.mp hc).trans ?_
        rw [lowerL_strip]
        exact strip_infix_self (lowerL raw)
      rw [isSub_iff.mpr this] at hsel
      exact Bool.true_eq_false.mp hsel
    rw [clean_model_sql_of_no_select raw hne hsel2, hrf, strip_idempotent]

/-- Witness for C8: a fenced no-`select` input comes back fence-stripped;
a fence-free no-`select` input comes back merely trimmed. -/
theorem cleaner_no_select_fallback_witness :
    clean_model_sql (S ("```hello```")) =
      strip (removeFences (strip (S ("```hello```")))) ∧
    clean_model_sql (S ("  hello  ")) = strip (S ("  hello  ")) :=
  ⟨cleaner_no_select_fallback.1 (S ("```hello```")) (by decide) (by decide),
   cleaner_no_select_fallback.2 (S ("  hello  ")) (by decide) (by decide) (by decide)⟩

end TextToSql
